import Mathlib

/-!
Verification of the PwnyHub client-side derived-view engine
(`src/app/src/App.jsx`): the filter/sort engine, the selection
controller, the setup gate and wizard-save validation, and the
persisted-view-state loader.  JavaScript numbers are modelled as exact
rationals `JsNum` (a fraction with positive denominator; the source only
ever compares, subtracts and scales finite numbers, so exact rationals
are a faithful shallow embedding of the finite doubles involved).
JavaScript strings are modelled as `String` with character-list
primitives for trim/lowercase/split/substring so that every definition
evaluates inside the kernel.  `Array.prototype.sort` (required to be
stable by the ECMAScript specification) is modelled by a stable
insertion sort; for the consistent comparators the source builds, the
stable sorted result is unique, so this agrees with any conforming
implementation.
-/

namespace PwnyHub

/-- A finite JavaScript number as an exact fraction with positive
denominator.  Not necessarily in lowest terms; all observations the
embedded code makes (ordering, zero tests, truthiness) go through the
cross-multiplication operations below. -/
structure JsNum where
  num : Int
  den : Nat
  den_pos : 0 < den

theorem JsNum.ext_parts : ∀ {a b : JsNum}, a.num = b.num → a.den = b.den → a = b := by
  intro a b h1 h2
  cases a
  cases b
  simp_all

instance : DecidableEq JsNum := fun a b =>
  if h1 : a.num = b.num then
    if h2 : a.den = b.den then isTrue (JsNum.ext_parts h1 h2)
    else isFalse (fun h => h2 (by rw [h]))
  else isFalse (fun h => h1 (by rw [h]))

/-- Embed an integer as a JavaScript number. -/
def jsInt (n : Int) : JsNum := ⟨n, 1, Nat.one_pos⟩

def jsZero : JsNum := jsInt 0

/-- Value of a `JsNum` as a rational, used only in proofs. -/
def JsNum.val (a : JsNum) : ℚ := (a.num : ℚ) / (a.den : ℚ)

/-- JavaScript `a - b` on numbers. -/
def qSub (a b : JsNum) : JsNum :=
  ⟨a.num * (b.den : Int) - b.num * (a.den : Int), a.den * b.den,
    Nat.mul_pos a.den_pos b.den_pos⟩

/-- JavaScript `a * b` on numbers. -/
def qMul (a b : JsNum) : JsNum :=
  ⟨a.num * b.num, a.den * b.den, Nat.mul_pos a.den_pos b.den_pos⟩

/-- JavaScript `a <= b` on numbers. -/
def qLeB (a b : JsNum) : Bool := a.num * (b.den : Int) ≤ b.num * (a.den : Int)

/-- JavaScript `a < b` on numbers. -/
def qLtB (a b : JsNum) : Bool := a.num * (b.den : Int) < b.num * (a.den : Int)

/-- JavaScript `a === b` (numeric value equality) on numbers. -/
def qEqB (a b : JsNum) : Bool := a.num * (b.den : Int) == b.num * (a.den : Int)

/-- JavaScript `x !== 0` (also the numeric part of truthiness). -/
def qNonzeroB (a : JsNum) : Bool := !(a.num == 0)

-- ---------- character-level string primitives ----------

/-- ASCII lowercasing of one character, the fragment of
`String.prototype.toLowerCase` exercised by the source's data. -/
def lowerChar (c : Char) : Char :=
  if 65 ≤ c.toNat && c.toNat ≤ 90 then Char.ofNat (c.toNat + 32) else c

/-- JavaScript `String.prototype.toLowerCase`. -/
def jsToLower (s : String) : String := String.mk (s.toList.map lowerChar)

def isWsChar (c : Char) : Bool :=
  c = ' ' || c = '\t' || c = '\n' || c = '\r'

def dropLeadingWs : List Char → List Char
  | [] => []
  | c :: rest => if isWsChar c then dropLeadingWs rest else c :: rest

/-- JavaScript `String.prototype.trim` (whitespace at both ends). -/
def jsTrim (s : String) : String :=
  String.mk ((dropLeadingWs (dropLeadingWs s.toList.reverse).reverse))

/-- Split a character list at every occurrence of the separator, keeping
empty segments, as `String.prototype.split` does. -/
def splitOnChar (sep : Char) : List Char → List (List Char)
  | [] => [[]]
  | x :: rest =>
    match splitOnChar sep rest with
    | [] => [[x]]
    | h :: t => if x = sep then [] :: h :: t else (x :: h) :: t

def listPrefixOf : List Char → List Char → Bool
  | [], _ => true
  | _ :: _, [] => false
  | p :: ps, c :: cs => p = c && listPrefixOf ps cs

/-- JavaScript `String.prototype.includes` on character lists. -/
def listContainsSub (pat : List Char) : List Char → Bool
  | [] => listPrefixOf pat []
  | c :: rest => listPrefixOf pat (c :: rest) || listContainsSub pat rest

/-- JavaScript `hay.includes(pat)`. -/
def strIncludes (hay pat : String) : Bool := listContainsSub pat.toList hay.toList

/-- `parseLinesToList` (App.jsx lines 168-173): split the text on line
breaks, trim every line, and drop blank lines.  Splitting on `\n` and
trimming afterwards also absorbs the `\r` of a `\r\n` break, exactly as
the source's `/\r?\n/` split followed by `trim` does. -/
def parseLinesToList (text : String) : List String :=
  (((splitOnChar '\n' text.toList).map (fun cs => jsTrim (String.mk cs))).filter
    (fun s => !(s == "")))

-- ---------- JSON values (the result of JSON.parse) ----------

inductive Json where
  | null : Json
  | bool : Bool → Json
  | num : JsNum → Json
  | str : String → Json
  | arr : List Json → Json
  | obj : List (String × Json) → Json

/-- JavaScript property access `v[k]`, `none` meaning `undefined`. -/
def jget : Json → String → Option Json
  | Json.obj kvs, k => kvs.lookup k
  | _, _ => none

/-- JavaScript truthiness of a parsed JSON value. -/
def truthy : Json → Bool
  | Json.null => false
  | Json.bool b => b
  | Json.num q => qNonzeroB q
  | Json.str s => !(s == "")
  | Json.arr _ => true
  | Json.obj _ => true

/-- JavaScript `a || b` for a possibly-undefined `a`. -/
def jsOrD (v : Option Json) (d : Json) : Json :=
  match v with
  | some x => if truthy x then x else d
  | none => d

/-- JavaScript `!!v` for a possibly-undefined `v`. -/
def boolish (v : Option Json) : Bool :=
  match v with
  | some x => truthy x
  | none => false

mutual
/-- JavaScript `String(v)` for parsed JSON values (number formatting is
approximated; the embedded code only ever stringifies strings). -/
def jsToString : Json → String
  | Json.null => "null"
  | Json.bool b => if b then "true" else "false"
  | Json.num q => toString q.num
  | Json.str s => s
  | Json.arr l => String.intercalate "," (jsToStringList l)
  | Json.obj _ => "[object Object]"

def jsToStringList : List Json → List String
  | [] => []
  | j :: rest => jsToString j :: jsToStringList rest
end

-- ---------- a JSON parser (JSON.parse) ----------

def hexDigitVal (c : Char) : Option Nat :=
  if '0' ≤ c ∧ c ≤ '9' then some (c.toNat - 48)
  else if 'a' ≤ c ∧ c ≤ 'f' then some (c.toNat - 87)
  else if 'A' ≤ c ∧ c ≤ 'F' then some (c.toNat - 70)
  else none

def escChar (c : Char) : Option Char :=
  if c = '"' then some '"'
  else if c = '\\' then some '\\'
  else if c = '/' then some '/'
  else if c = 'n' then some '\n'
  else if c = 't' then some '\t'
  else if c = 'r' then some '\r'
  else if c = 'b' then some (Char.ofNat 8)
  else if c = 'f' then some (Char.ofNat 12)
  else none

/-- Parse the body of a JSON string literal after the opening quote. -/
def parseStrBody (fuel : Nat) (cs : List Char) (acc : List Char) :
    Option (String × List Char) :=
  match fuel, cs with
  | 0, _ => none
  | _, [] => none
  | f + 1, c :: rest =>
    if c = '"' then some (String.mk acc.reverse, rest)
    else if c = '\\' then
      match rest with
      | [] => none
      | e :: rest2 =>
        if e = 'u' then
          match rest2 with
          | a :: b :: c2 :: d :: rest3 =>
            match hexDigitVal a, hexDigitVal b, hexDigitVal c2, hexDigitVal d with
            | some x, some y, some z, some w =>
              parseStrBody f rest3 (Char.ofNat (((x * 16 + y) * 16 + z) * 16 + w) :: acc)
            | _, _, _, _ => none
          | _ => none
        else
          match escChar e with
          | some ec => parseStrBody f rest2 (ec :: acc)
          | none => none
    else parseStrBody f rest (c :: acc)

def takeDigits : List Char → List Char × List Char
  | [] => ([], [])
  | c :: rest =>
    if c.isDigit then
      match takeDigits rest with
      | (d, r) => (c :: d, r)
    else ([], c :: rest)

def digitsToNat (ds : List Char) : Nat :=
  ds.foldl (fun n c => n * 10 + (c.toNat - 48)) 0

/-- Build the number `sign * (intPart + frac/10^fracLen) * 10^exp`. -/
def mkJsNum (neg : Bool) (intPart : Nat) (fracDigits : List Char) (exp : Int) : JsNum :=
  let fracLen := fracDigits.length
  let scaled : Int := (intPart * 10 ^ fracLen + digitsToNat fracDigits : Nat)
  let signed : Int := if neg then -scaled else scaled
  if 0 ≤ exp then
    ⟨signed * (10 ^ exp.toNat : Nat), 10 ^ fracLen,
      Nat.pos_pow_of_pos fracLen (by decide)⟩
  else
    ⟨signed, 10 ^ fracLen * 10 ^ (-exp).toNat,
      Nat.mul_pos (Nat.pos_pow_of_pos fracLen (by decide))
        (Nat.pos_pow_of_pos (-exp).toNat (by decide))⟩

/-- Parse an optional exponent part `e`/`E` sign digits. -/
def parseExpPart (cs : List Char) : Option (Int × List Char) :=
  match cs with
  | 'e' :: rest | 'E' :: rest =>
    let signAndRest : Bool × List Char :=
      match rest with
      | '-' :: r2 => (true, r2)
      | '+' :: r2 => (false, r2)
      | r2 => (false, r2)
    match takeDigits signAndRest.2 with
    | ([], _) => none
    | (ds, r3) =>
      let e : Int := (digitsToNat ds : Nat)
      some (if signAndRest.1 then -e else e, r3)
  | _ => some (0, cs)

/-- Parse a decimal number: digits, optional fraction, optional
exponent.  `allowBare` permits omitting integer digits when a fraction
is present (`.5`), as `Number` does; JSON requires integer digits. -/
def parseDecCore (allowBare : Bool) (neg : Bool) (cs : List Char) :
    Option (JsNum × List Char) :=
  match takeDigits cs with
  | (intDs, rest1) =>
    let fracAndRest : Option (List Char × List Char) :=
      match rest1 with
      | '.' :: r2 =>
        match takeDigits r2 with
        | ([], r3) => if allowBare && intDs ≠ [] then some ([], r3) else none
        | (fds, r3) => some (fds, r3)
      | r2 => some ([], r2)
    match fracAndRest with
    | none => none
    | some (fds, rest2) =>
      if intDs = [] && fds = [] then none
      else
        match parseExpPart rest2 with
        | none => none
        | some (e, rest3) => some (mkJsNum neg (digitsToNat intDs) fds e, rest3)

mutual
/-- One JSON value, fuelled recursive descent (`JSON.parse` core). -/
def parseVal : Nat → List Char → Option (Json × List Char)
  | 0, _ => none
  | f + 1, cs =>
    match dropLeadingWs cs with
    | 'n' :: 'u' :: 'l' :: 'l' :: rest => some (Json.null, rest)
    | 't' :: 'r' :: 'u' :: 'e' :: rest => some (Json.bool true, rest)
    | 'f' :: 'a' :: 'l' :: 's' :: 'e' :: rest => some (Json.bool false, rest)
    | '"' :: rest =>
      match parseStrBody (f + 1) rest [] with
      | some (s, r) => some (Json.str s, r)
      | none => none
    | '[' :: rest => parseArrTail f rest
    | '\x7b' :: rest => parseObjTail f rest
    | '-' :: rest =>
      match parseDecCore false true rest with
      | some (q, r) => some (Json.num q, r)
      | none => none
    | rest =>
      match parseDecCore false false rest with
      | some (q, r) => some (Json.num q, r)
      | none => none

/-- After `[`: empty array or first element then the comma loop. -/
def parseArrTail : Nat → List Char → Option (Json × List Char)
  | 0, _ => none
  | f + 1, cs =>
    match dropLeadingWs cs with
    | ']' :: rest => some (Json.arr [], rest)
    | cs2 =>
      match parseVal f cs2 with
      | none => none
      | some (v, rest) =>
        match parseArrRest f rest with
        | some (vs, rest2) => some (Json.arr (v :: vs), rest2)
        | none => none

/-- After an array element: `,` element ... or `]`. -/
def parseArrRest : Nat → List Char → Option (List Json × List Char)
  | 0, _ => none
  | f + 1, cs =>
    match dropLeadingWs cs with
    | ']' :: rest => some ([], rest)
    | ',' :: rest =>
      match parseVal f rest with
      | none => none
      | some (v, rest2) =>
        match parseArrRest f rest2 with
        | some (vs, rest3) => some (v :: vs, rest3)
        | none => none
    | _ => none

/-- After `\x7b`: empty object or first pair then the comma loop. -/
def parseObjTail : Nat → List Char → Option (Json × List Char)
  | 0, _ => none
  | f + 1, cs =>
    match dropLeadingWs cs with
    | '\x7d' :: rest => some (Json.obj [], rest)
    | cs2 =>
      match parsePair f cs2 with
      | none => none
      | some (kv, rest) =>
        match parseObjRest f rest with
        | some (kvs, rest2) => some (Json.obj (kv :: kvs), rest2)
        | none => none

/-- One `"key" : value` pair. -/
def parsePair : Nat → List Char → Option ((String × Json) × List Char)
  | 0, _ => none
  | f + 1, cs =>
    match dropLeadingWs cs with
    | '"' :: rest =>
      match parseStrBody (f + 1) rest [] with
      | none => none
      | some (k, rest2) =>
        match dropLeadingWs rest2 with
        | ':' :: rest3 =>
          match parseVal f rest3 with
          | some (v, rest4) => some ((k, v), rest4)
          | none => none
        | _ => none
    | _ => none

/-- After an object pair: `,` pair ... or `\x7d`. -/
def parseObjRest : Nat → List Char → Option (List (String × Json) × List Char)
  | 0, _ => none
  | f + 1, cs =>
    match dropLeadingWs cs with
    | '\x7d' :: rest => some ([], rest)
    | ',' :: rest =>
      match parsePair f rest with
      | none => none
      | some (kv, rest2) =>
        match parseObjRest f rest2 with
        | some (kvs, rest3) => some (kv :: kvs, rest3)
        | none => none
    | _ => none
end

/-- `JSON.parse` returning `none` on any syntax error, requiring the
whole input to be consumed. -/
def jsonParse (s : String) : Option Json :=
  match parseVal (2 * s.length + 4) s.toList with
  | some (v, rest) => if dropLeadingWs rest = [] then some v else none
  | none => none

/-- `safeJsonParse` (App.jsx lines 96-102): `JSON.parse` with errors
mapped to `null`.  `none` stands for the `null` result, covering both a
parse error and a successful parse of the text `null`. -/
def safeJsonParse (s : String) : Option Json :=
  match jsonParse s with
  | some Json.null => none
  | some v => some v
  | none => none

-- ---------- Number() coercion of a string ----------

def takeHexDigits : List Char → List Nat × List Char
  | [] => ([], [])
  | c :: rest =>
    match hexDigitVal c with
    | some v =>
      match takeHexDigits rest with
      | (d, r) => (v :: d, r)
    | none => ([], c :: rest)

def hexDigitsToNat (ds : List Nat) : Nat :=
  ds.foldl (fun n v => n * 16 + v) 0

/-- JavaScript `Number(s)` for a string: `none` is a non-finite result
(`NaN` or an infinity), which the wizard rejects either way.  Handles
whitespace, the empty string (`0`), hex literals, signs, decimals and
exponents. -/
def jsNumber (s : String) : Option JsNum :=
  let cs := dropLeadingWs (dropLeadingWs s.toList.reverse).reverse
  match cs with
  | [] => some jsZero
  | '0' :: 'x' :: rest | '0' :: 'X' :: rest =>
    (match takeHexDigits rest with
     | ([], _) => none
     | (ds, []) => some (jsInt (hexDigitsToNat ds : Nat))
     | (_, _ :: _) => none)
  | _ =>
    let signAndRest : Bool × List Char :=
      match cs with
      | '-' :: r => (true, r)
      | '+' :: r => (false, r)
      | r => (false, r)
    match signAndRest.2 with
    | 'I' :: 'n' :: 'f' :: 'i' :: 'n' :: 'i' :: 't' :: 'y' :: [] => none
    | body =>
      match parseDecCore true signAndRest.1 body with
      | some (q, []) => some q
      | _ => none

-- ---------- data model ----------

/-- One aggregated action record as consumed by the view engine
(spec section 3; fields read by App.jsx's filter/sort code).
`risk_score = none` models an absent (`undefined`/`null`) score and
`risk_tags = none` models a missing tag array. -/
structure Action where
  key : String
  host : String
  method : String
  path_template : String
  top_mime : String
  count : JsNum
  avg_resp_bytes : JsNum
  avg_time_ms : JsNum
  has_body : Bool
  risk_score : Option JsNum
  risk_tags : Option (List String)
  deriving DecidableEq

/-- The filter preferences read by `filteredActions` (App.jsx lines
565-593).  `q` is the (already debounced) search text and
`excludedTags` the tag-exclusion set, kept as the list the state
holds. -/
structure FilterState where
  fHost : String
  fMethod : String
  fMime : String
  q : String
  onlyHasBody : Bool
  minCount : JsNum
  minRisk : JsNum
  excludedTags : List String

inductive Col where
  | none | count | risk | time | bytes | body | method | host | path | mime
  deriving DecidableEq

inductive Dir where
  | asc | desc
  deriving DecidableEq

/-- Sort preference; `Col.none` is the persisted empty column string,
meaning "use the computed default". -/
structure SortState where
  col : Col
  dir : Dir

def defaultFilter : FilterState := ⟨"", "", "", "", false, jsZero, jsZero, []⟩

def defaultSortState : SortState := ⟨Col.none, Dir.desc⟩

-- ---------- filter predicates (App.jsx lines 565-593) ----------

/-- Tag exclusion filter (lines 569-576): with a non-empty exclusion
set, an action passes only if none of its tags is excluded. -/
def tagPass (f : FilterState) (a : Action) : Bool :=
  if f.excludedTags.isEmpty then true
  else (a.risk_tags.getD []).all (fun t => !(f.excludedTags.contains t))

def hostPass (f : FilterState) (a : Action) : Bool :=
  if f.fHost == "" then true else a.host == f.fHost

def methodPass (f : FilterState) (a : Action) : Bool :=
  if f.fMethod == "" then true else a.method == f.fMethod

def mimePass (f : FilterState) (a : Action) : Bool :=
  if f.fMime == "" then true else a.top_mime == f.fMime

def bodyPass (f : FilterState) (a : Action) : Bool :=
  if f.onlyHasBody then a.has_body else true

def countPass (f : FilterState) (a : Action) : Bool :=
  if qLtB jsZero f.minCount then qLeB f.minCount a.count else true

def riskPass (f : FilterState) (a : Action) : Bool :=
  if qLtB jsZero f.minRisk then qLeB f.minRisk (a.risk_score.getD jsZero) else true

/-- Free-text search (lines 583-593): case-insensitive substring of
host, path template, method, MIME, key, or the joined tag list. -/
def searchPass (f : FilterState) (a : Action) : Bool :=
  let qq := jsToLower (jsTrim f.q)
  if qq == "" then true
  else
    strIncludes (jsToLower a.host) qq ||
    strIncludes (jsToLower a.path_template) qq ||
    strIncludes (jsToLower a.method) qq ||
    strIncludes (jsToLower a.top_mime) qq ||
    strIncludes (jsToLower a.key) qq ||
    (match a.risk_tags with
     | some tags => strIncludes (jsToLower (String.intercalate " " tags)) qq
     | none => false)

/-- The eight filters and-combined, in source order. -/
def passes (f : FilterState) (a : Action) : Bool :=
  searchPass f a &&
    (riskPass f a &&
      (countPass f a &&
        (bodyPass f a &&
          (mimePass f a &&
            (methodPass f a &&
              (hostPass f a && tagPass f a))))))

-- ---------- sort comparator (App.jsx lines 595-646) ----------

/-- `hasRisk` (lines 373-375): some loaded action has a defined
(non-null, non-undefined) risk score. -/
def hasRisk (actions : List Action) : Bool :=
  actions.any (fun a => a.risk_score.isSome)

/-- `defaultSort` (lines 518-520). -/
def defaultSort (actions : List Action) : Col × Dir :=
  if hasRisk actions then (Col.risk, Dir.desc) else (Col.count, Dir.desc)

/-- `sortCol || defaultSort.col` and `sortCol ? sortDir :
defaultSort.dir` (lines 595-596). -/
def resolveSort (actions : List Action) (s : SortState) : Col × Dir :=
  if s.col = Col.none then defaultSort actions else (s.col, s.dir)

def dirMul : Dir → JsNum
  | Dir.desc => jsInt 1
  | Dir.asc => jsInt (-1)

/-- A comparison key: a number or a string (lines 599-625). -/
inductive SVal where
  | n : JsNum → SVal
  | s : String → SVal
  deriving DecidableEq

/-- `getVal` (lines 602-625); the default branch returns the count. -/
def getVal (col : Col) (a : Action) : SVal :=
  match col with
  | Col.risk => SVal.n (a.risk_score.getD jsZero)
  | Col.count => SVal.n a.count
  | Col.time => SVal.n a.avg_time_ms
  | Col.bytes => SVal.n a.avg_resp_bytes
  | Col.body => SVal.n (if a.has_body then jsInt 1 else jsZero)
  | Col.method => SVal.s (jsToLower a.method)
  | Col.host => SVal.s (jsToLower a.host)
  | Col.path => SVal.s (jsToLower a.path_template)
  | Col.mime => SVal.s (jsToLower a.top_mime)
  | Col.none => SVal.n a.count

/-- `String(v)` on a comparison key; for any fixed column both keys have
the same shape, so the number case is never reached by `cmp`. -/
def svString : SVal → String
  | SVal.s t => t
  | SVal.n q => toString q.num

def ordToNum : Ordering → JsNum
  | Ordering.lt => jsInt (-1)
  | Ordering.eq => jsZero
  | Ordering.gt => jsInt 1

/-- The shared tie-break chain (lines 635-637 and 643-645): count
descending, then average-time descending. -/
def tieCmp (A B : Action) : JsNum :=
  let t1 := qSub B.count A.count
  if qNonzeroB t1 then t1 else qSub B.avg_time_ms A.avg_time_ms

/-- The branch of `cmp` on the two extracted keys (lines 629-646): the
numeric pair compares by scaled difference, any other pair by
locale-style string comparison of the stringified keys. -/
def cmpVals (dir : Dir) (va vb : SVal) (A B : Action) : JsNum :=
  match va, vb with
  | SVal.n na, SVal.n nb =>
    let d := qMul (qSub nb na) (dirMul dir)
    if qNonzeroB d then d else tieCmp A B
  | va2, vb2 =>
    let d := qMul (ordToNum (compare (svString vb2) (svString va2))) (dirMul dir)
    if qNonzeroB d then d else tieCmp A B

/-- The comparator `cmp` (lines 627-646).  A negative result orders `A`
before `B`. -/
def cmp (col : Col) (dir : Dir) (A B : Action) : JsNum :=
  cmpVals dir (getVal col A) (getVal col B) A B

-- ---------- stable sort (Array.prototype.sort) ----------

/-- Insert behind every element that precedes-or-ties the new one, so
earlier input elements stay first among ties. -/
def stableInsert (le : α → α → Bool) (x : α) : List α → List α
  | [] => [x]
  | y :: ys => if le y x && !(le x y) then y :: stableInsert le x ys else x :: y :: ys

/-- Stable sort; models ECMAScript `Array.prototype.sort`, which is
required to be stable and, for the consistent comparators built above,
has a unique possible result. -/
def stableSort (le : α → α → Bool) : List α → List α
  | [] => []
  | x :: xs => stableInsert le x (stableSort le xs)

-- ---------- the derived view (App.jsx lines 565-663) ----------

/-- `filteredActions`: the eight filters in source order, then the sort
by the resolved column and direction, then the 800-row cap. -/
def filteredActions (actions : List Action) (f : FilterState) (s : SortState) :
    List Action :=
  let list :=
    ((((((((actions.filter (tagPass f)).filter (hostPass f)).filter
      (methodPass f)).filter (mimePass f)).filter (bodyPass f)).filter
      (countPass f)).filter (riskPass f)).filter (searchPass f))
  let rs := resolveSort actions s
  let sorted := stableSort (fun A B => qLeB (cmp rs.1 rs.2 A B) jsZero) list
  sorted.take 800

/-- The filter stage as a single predicate (for stating that the cap is
applied only after filtering and sorting). -/
def filterList (f : FilterState) (actions : List Action) : List Action :=
  actions.filter (passes f)

/-- The sort stage alone. -/
def sortView (actions : List Action) (s : SortState) (l : List Action) :
    List Action :=
  stableSort (fun A B => qLeB (cmp (resolveSort actions s).1 (resolveSort actions s).2 A B) jsZero) l

-- ---------- selection self-heal (App.jsx lines 694-716) ----------

/-- The effect body of lines 694-701: with no loaded actions nothing
happens; an unset key takes the first visible row's key; a key that is
no longer visible is reassigned to the first visible row's key (the
empty string when the view is empty); a still-visible key is kept. -/
def selHealKey (selectedKey : String) (actions view : List Action) : String :=
  if actions.length = 0 then selectedKey
  else if selectedKey == "" then ((view.head?).map Action.key).getD ""
  else if view.any (fun a => a.key == selectedKey) then selectedKey
  else ((view.head?).map Action.key).getD ""

-- ---------- wizard save (App.jsx lines 1091-1160) ----------

inductive WizardFail where
  | noProjectSelected
  | emptyScopeAllowlist
  | invalidQps
  | invalidRoeJson
  | saveFailed
  deriving DecidableEq

/-- The PATCH body built on validation success (lines 1123-1128). -/
structure SavePayload where
  scope_allow : List String
  scope_deny : List String
  qps : JsNum
  roe : Json

/-- `Number(wizQps || 3)` (line 1106): the empty string is falsy, so it
is replaced by the number 3 before any parsing. -/
def wizQpsNum (s : String) : Option JsNum :=
  if s == "" then some (jsInt 3) else jsNumber s

/-- The local validation of `wizardSave` (lines 1093-1119), first
failure winning: selected project, non-empty allow-list, finite positive
QPS, ROE text parsing to a non-null structured value. -/
def wizardValidate (projectId allowText denyText qpsText roeText : String) :
    Except WizardFail SavePayload :=
  if projectId == "" then Except.error WizardFail.noProjectSelected
  else
    let allowList := parseLinesToList allowText
    let denyList := parseLinesToList denyText
    if allowList.isEmpty then Except.error WizardFail.emptyScopeAllowlist
    else
      match wizQpsNum qpsText with
      | none => Except.error WizardFail.invalidQps
      | some q =>
        if qLeB q jsZero then Except.error WizardFail.invalidQps
        else
          match safeJsonParse roeText with
          | none => Except.error WizardFail.invalidRoeJson
          | some roe => Except.ok ⟨allowList, denyList, q, roe⟩

/-- `!!data?.project?.setup_complete` (line 1137). -/
def respSetupComplete (data : Json) : Bool :=
  boolish ((jget data "project").bind (fun p => jget p "setup_complete"))

/-- The observable outcome of one `wizardSave` call: the validation or
save error (if any), the PATCH request that was issued (if any), and
the gate flag afterwards. -/
structure WizardOutcome where
  err : Option WizardFail
  request : Option SavePayload
  setupComplete : Bool

/-- `wizardSave` (lines 1091-1160) with the network modelled as a
function from the PATCH payload to a response body or failure.  On a
validation failure the function returns before any request is issued
and the gate is untouched; on a failed request the gate is untouched;
on success the gate is re-derived from the response body. -/
def wizardSave (setupComplete : Bool)
    (projectId allowText denyText qpsText roeText : String)
    (net : SavePayload → Except String Json) : WizardOutcome :=
  match wizardValidate projectId allowText denyText qpsText roeText with
  | Except.error e => ⟨some e, none, setupComplete⟩
  | Except.ok payload =>
    match net payload with
    | Except.error _ => ⟨some WizardFail.saveFailed, some payload, setupComplete⟩
    | Except.ok data => ⟨none, some payload, respSetupComplete data⟩

-- ---------- persisted view state (App.jsx lines 194-273, 313-337) ----------

def DEFAULT_ENGINE : String := "http://127.0.0.1:8787"

/-- The preference bag restored at startup.  Fields whose initializer
coerces (`!!x`, `Number.isFinite`, the tag-array normalization) are
typed; fields stored through `||` defaulting keep the dynamic JSON
value. -/
structure PersistedViewState where
  engineUrl : Json
  engineLastOkAt : Json
  projectId : Json
  selectedActionKey : Json
  includeAssets : Bool
  includeRisk : Bool
  autoLoadOnProjectSelect : Bool
  focusMode : Bool
  fHost : Json
  fMethod : Json
  fMime : Json
  q : Json
  onlyHasBody : Bool
  minCount : JsNum
  minRisk : JsNum
  sortCol : Json
  sortDir : Json
  cols : Json
  tagFilterOpen : Bool
  hideUncheckedTagsInPanel : Json
  excludedTags : List String

/-- `saved.x !== false` (lines 225-228). -/
def notFalse (v : Option Json) : Bool :=
  match v with
  | some (Json.bool false) => false
  | _ => true

/-- `Number.isFinite(saved.x) ? saved.x : 0` (lines 239-240): no
coercion, so only an actually numeric stored value is kept. -/
def finiteNumOr0 (v : Option Json) : JsNum :=
  match v with
  | some (Json.num q) => q
  | _ => jsZero

/-- `saved.x ?? true` (lines 245-247). -/
def nullishTrue (v : Option Json) : Json :=
  match v with
  | none => Json.bool true
  | some Json.null => Json.bool true
  | some x => x

/-- JavaScript `v === true`. -/
def isJsonTrue : Json → Bool
  | Json.bool true => true
  | _ => false

/-- The excluded-tag normalization (lines 249-254): an array is mapped
to strings, an object keeps the keys stored as `true`, anything else is
the empty set. -/
def excludedTagsOf (v : Option Json) : List String :=
  match v with
  | some (Json.arr l) => jsToStringList l
  | some (Json.obj kvs) =>
    (kvs.filter (fun kv => isJsonTrue kv.2)).map (fun kv => kv.1)
  | _ => []

/-- `defaultCols` (lines 257-268). -/
def defaultColsKvs : List (String × Json) :=
  [("count", Json.bool true), ("risk", Json.bool true), ("method", Json.bool true),
   ("host", Json.bool true), ("path", Json.bool true), ("mime", Json.bool true),
   ("statuses", Json.bool true), ("bytes", Json.bool true), ("time", Json.bool true),
   ("body", Json.bool true)]

/-- JavaScript object spread `{...base, ...extra}`: base keys keep
their position (values overridden by `extra`), new keys append. -/
def mergeObj (base extra : List (String × Json)) : List (String × Json) :=
  (base.map (fun kv => (kv.1, ((extra.lookup kv.1).getD kv.2)))) ++
    (extra.filter (fun kv => !(base.any (fun b => b.1 == kv.1))))

/-- `{ ...defaultCols, ...(saved.cols || {}) }` (line 269); a stored
non-object contributes no column keys. -/
def colsOf (v : Option Json) : Json :=
  match v with
  | some (Json.obj kvs) => Json.obj (mergeObj defaultColsKvs kvs)
  | _ => Json.obj defaultColsKvs

/-- Lines 194-197: a missing key or empty string is the empty bag, and
otherwise `safeJsonParse(raw) || {}` (a parse failure, like any falsy
parse result, is the empty bag). -/
def savedOf (storage : Option String) : Json :=
  match storage with
  | none => Json.obj []
  | some raw =>
    if raw == "" then Json.obj []
    else jsOrD (jsonParse raw) (Json.obj [])

/-- The whole restore path (lines 194-273): every `useState`
initializer that reads `saved`, applied to the parsed storage content.
`env` models `import.meta.env.VITE_ENGINE_URL` (`Json.null` when
unset). -/
def loadViewState (env : Json) (storage : Option String) : PersistedViewState :=
  let saved := savedOf storage
  { engineUrl := jsOrD (jget saved "engineUrl") (jsOrD (some env) (Json.str DEFAULT_ENGINE)),
    engineLastOkAt := jsOrD (jget saved "engineLastOkAt") (Json.num jsZero),
    projectId := jsOrD (jget saved "projectId") (Json.str ""),
    selectedActionKey := jsOrD (jget saved "selectedActionKey") (Json.str ""),
    includeAssets := boolish (jget saved "includeAssets"),
    includeRisk := notFalse (jget saved "includeRisk"),
    autoLoadOnProjectSelect := notFalse (jget saved "autoLoadOnProjectSelect"),
    focusMode := boolish (jget saved "focusMode"),
    fHost := jsOrD (jget saved "fHost") (Json.str ""),
    fMethod := jsOrD (jget saved "fMethod") (Json.str ""),
    fMime := jsOrD (jget saved "fMime") (Json.str ""),
    q := jsOrD (jget saved "q") (Json.str ""),
    onlyHasBody := boolish (jget saved "onlyHasBody"),
    minCount := finiteNumOr0 (jget saved "minCount"),
    minRisk := finiteNumOr0 (jget saved "minRisk"),
    sortCol := jsOrD (jget saved "sortCol") (Json.str ""),
    sortDir := jsOrD (jget saved "sortDir") (Json.str "desc"),
    cols := colsOf (jget saved "cols"),
    tagFilterOpen := boolish (jget saved "tagFilterOpen"),
    hideUncheckedTagsInPanel := nullishTrue (jget saved "hideUncheckedTagsInPanel"),
    excludedTags := excludedTagsOf (jget saved "excludedTags") }

/-- The fully-defaulted view state the specification documents for an
absent store: default engine URL (or the environment override), no
timestamps, no project, no selection, import knobs at their defaults
(risk and auto-load on, assets off), all filters clear, default
columns, tag panel closed and empty exclusion set. -/
def defaultViewState (env : Json) : PersistedViewState :=
  { engineUrl := jsOrD (some env) (Json.str DEFAULT_ENGINE),
    engineLastOkAt := Json.num jsZero,
    projectId := Json.str "",
    selectedActionKey := Json.str "",
    includeAssets := false,
    includeRisk := true,
    autoLoadOnProjectSelect := true,
    focusMode := false,
    fHost := Json.str "",
    fMethod := Json.str "",
    fMime := Json.str "",
    q := Json.str "",
    onlyHasBody := false,
    minCount := jsZero,
    minRisk := jsZero,
    sortCol := Json.str "",
    sortDir := Json.str "desc",
    cols := Json.obj defaultColsKvs,
    tagFilterOpen := false,
    hideUncheckedTagsInPanel := Json.bool true,
    excludedTags := [] }

-- ---------- auxiliary definitions for the stated properties ----------

/-- The QPS text is accepted by the wizard: it parses to a finite
number strictly greater than zero (after the empty-string default). -/
def qpsAccepted (s : String) : Bool :=
  match wizQpsNum s with
  | none => false
  | some q => !(qLeB q jsZero)

/-- One-step tightening of the filter state, as enumerated by the
filter-monotonicity property: set an equality facet from the wildcard,
enable the body-only toggle, raise a numeric threshold, exclude one
more tag, or give a search text to an empty search. -/
inductive TightensFilter : FilterState → FilterState → Prop where
  | host (f : FilterState) (h : String) (hw : f.fHost = "") :
      TightensFilter f { f with fHost := h }
  | method (f : FilterState) (m : String) (hw : f.fMethod = "") :
      TightensFilter f { f with fMethod := m }
  | mime (f : FilterState) (m : String) (hw : f.fMime = "") :
      TightensFilter f { f with fMime := m }
  | body (f : FilterState) (hw : f.onlyHasBody = false) :
      TightensFilter f { f with onlyHasBody := true }
  | mcount (f : FilterState) (m : JsNum) (hm : qLeB f.minCount m = true) :
      TightensFilter f { f with minCount := m }
  | mrisk (f : FilterState) (m : JsNum) (hm : qLeB f.minRisk m = true) :
      TightensFilter f { f with minRisk := m }
  | tag (f : FilterState) (t : String) :
      TightensFilter f { f with excludedTags := t :: f.excludedTags }
  | search (f : FilterState) (s : String) (hw : f.q = "") :
      TightensFilter f { f with q := s }

/-- Scenario A of the specification: two actions with computed risk. -/
def scnA1 : Action :=
  ⟨"a", "", "", "", "", jsInt 5, jsZero, jsZero, false, some (jsInt 10), none⟩

def scnB1 : Action :=
  ⟨"b", "", "", "", "", jsInt 9, jsZero, jsZero, false, some (jsInt 80), none⟩

/-- Scenario B of the specification: the same two counts, no risk. -/
def scnA2 : Action :=
  ⟨"a", "", "", "", "", jsInt 5, jsZero, jsZero, false, none, none⟩

def scnB2 : Action :=
  ⟨"b", "", "", "", "", jsInt 9, jsZero, jsZero, false, none, none⟩

/-- Two distinct actions agreeing on every sort key (equal count and
average time): the comparator ties completely on them. -/
def tieX : Action :=
  ⟨"x", "", "", "", "", jsInt 1, jsZero, jsInt 1, false, none, none⟩

def tieY : Action :=
  ⟨"y", "", "", "", "", jsInt 1, jsZero, jsInt 1, false, none, none⟩

/-- Rows for the selection scenario: keys y and z, counts keeping y
first under the default count-descending order. -/
def rowY : Action :=
  ⟨"y", "", "", "", "", jsInt 2, jsZero, jsZero, false, none, none⟩

def rowZ : Action :=
  ⟨"z", "", "", "", "", jsInt 1, jsZero, jsZero, false, none, none⟩

/-- An action carrying an excluded tag next to an innocuous one
(scenario C). -/
def rowC : Action :=
  ⟨"c", "", "", "", "", jsInt 1, jsZero, jsZero, false, none,
    some ["third_party", "writes"]⟩


/-- The payload the wizard builds for allow-list `example.com`, empty
deny list, QPS text `3` and ROE text `\x7b\x7d`. -/
def demoPayload : SavePayload := ⟨["example.com"], [], jsInt 3, Json.obj []⟩

/-- A network that always fails (a non-2xx response or network error). -/
def netDown : SavePayload → Except String Json := fun _ => Except.error "500"

/-- A network whose response marks setup complete. -/
def netOkTrue : SavePayload → Except String Json := fun _ =>
  Except.ok (Json.obj [("project", Json.obj [("setup_complete", Json.bool true)])])


-- ---------- helper lemmas ----------

theorem mem_stableInsert (le : α → α → Bool) (x a : α) (l : List α) :
    a ∈ stableInsert le x l ↔ a = x ∨ a ∈ l := by
  induction l with
  | nil => simp [stableInsert]
  | cons y ys ih =>
    simp only [stableInsert]
    split
    · simp only [List.mem_cons, ih]
      tauto
    · simp only [List.mem_cons]

theorem mem_stableSort (le : α → α → Bool) (a : α) (l : List α) :
    a ∈ stableSort le l ↔ a ∈ l := by
  induction l with
  | nil => simp [stableSort]
  | cons x xs ih => simp [stableSort, mem_stableInsert, ih]

theorem length_stableInsert (le : α → α → Bool) (x : α) (l : List α) :
    (stableInsert le x l).length = l.length + 1 := by
  induction l with
  | nil => simp [stableInsert]
  | cons y ys ih =>
    simp only [stableInsert]
    split
    · simp [ih]
    · simp

theorem length_stableSort (le : α → α → Bool) (l : List α) :
    (stableSort le l).length = l.length := by
  induction l with
  | nil => simp [stableSort]
  | cons x xs ih => simp [stableSort, length_stableInsert, ih]

theorem filteredActions_eq (acts : List Action) (f : FilterState) (s : SortState) :
    filteredActions acts f s = (sortView acts s (filterList f acts)).take 800 := by
  simp only [filteredActions, List.filter_filter, sortView, filterList]
  rfl

-- value bridge for the JavaScript number comparisons

theorem den_cast_pos (a : JsNum) : (0 : ℚ) < (a.den : ℚ) := by
  exact_mod_cast a.den_pos

theorem qLeB_iff (a b : JsNum) : qLeB a b = true ↔ a.val ≤ b.val := by
  rw [qLeB, JsNum.val, JsNum.val, div_le_div_iff₀ (den_cast_pos a) (den_cast_pos b)]
  rw [decide_eq_true_eq]
  constructor
  · intro h
    exact_mod_cast h
  · intro h
    exact_mod_cast h

theorem qLtB_iff (a b : JsNum) : qLtB a b = true ↔ a.val < b.val := by
  rw [qLtB, JsNum.val, JsNum.val, div_lt_div_iff₀ (den_cast_pos a) (den_cast_pos b)]
  rw [decide_eq_true_eq]
  constructor
  · intro h
    exact_mod_cast h
  · intro h
    exact_mod_cast h

theorem jsZero_val : jsZero.val = 0 := by
  simp [jsZero, jsInt, JsNum.val]

theorem qEqB_iff (a b : JsNum) : qEqB a b = true ↔ a.val = b.val := by
  rw [qEqB, JsNum.val, JsNum.val, div_eq_div_iff (ne_of_gt (den_cast_pos a)) (ne_of_gt (den_cast_pos b))]
  rw [beq_iff_eq]
  constructor
  · intro h
    exact_mod_cast h
  · intro h
    exact_mod_cast h

theorem qLtB_zero_iff (a : JsNum) : qLtB jsZero a = true ↔ 0 < a.val := by
  rw [qLtB_iff, jsZero_val]

-- tie-break characterizations

theorem tieCmp_neg_iff (A B : Action) :
    qLtB (tieCmp A B) jsZero = true ↔
      (qLtB B.count A.count = true ∨
        (qEqB B.count A.count = true ∧ qLtB B.avg_time_ms A.avg_time_ms = true)) := by
  simp only [tieCmp, qLtB, qEqB, qSub, qNonzeroB, jsZero, jsInt]
  split
  · rename_i hne
    simp only [Bool.not_eq_true', beq_eq_false_iff_ne, ne_eq] at hne
    simp only [decide_eq_true_eq, beq_iff_eq]
    constructor
    · intro h
      left
      omega
    · intro h
      rcases h with h | h
      · omega
      · omega
  · rename_i heq
    simp only [Bool.not_eq_eq_eq_not, Bool.not_true, beq_eq_false_iff_ne, ne_eq,
      Decidable.not_not] at heq
    simp only [decide_eq_true_eq, beq_iff_eq]
    constructor
    · intro h
      right
      constructor
      · omega
      · omega
    · intro h
      rcases h with h | h
      · omega
      · omega

theorem tieCmp_zero_iff (A B : Action) :
    qNonzeroB (tieCmp A B) = false ↔
      (qEqB B.count A.count = true ∧ qEqB B.avg_time_ms A.avg_time_ms = true) := by
  simp only [tieCmp, qEqB, qSub, qNonzeroB, jsZero, jsInt]
  split
  · rename_i hne
    simp only [Bool.not_eq_true', beq_eq_false_iff_ne, ne_eq] at hne
    simp only [Bool.not_eq_false', beq_iff_eq]
    constructor
    · intro h
      omega
    · intro h
      omega
  · rename_i heq
    simp only [Bool.not_eq_eq_eq_not, Bool.not_true, beq_eq_false_iff_ne, ne_eq,
      Decidable.not_not] at heq
    simp only [Bool.not_eq_false', beq_iff_eq]
    constructor
    · intro h
      constructor
      · omega
      · omega
    · intro h
      omega

theorem compare_self_str (s : String) : compare s s = Ordering.eq := by
  simp [compare, compareOfLessAndEq, String.lt_irrefl]

/-- With equal extracted keys the comparator reduces to the tie-break
chain, whatever the direction. -/
theorem cmpVals_of_eq (dir : Dir) (v : SVal) (A B : Action) :
    cmpVals dir v v A B = tieCmp A B := by
  cases v with
  | n q =>
    simp only [cmpVals, qMul, qSub, qNonzeroB]
    have hz : q.num * (q.den : Int) - q.num * (q.den : Int) = 0 := by omega
    rw [hz]
    simp
  | s t =>
    simp only [cmpVals, compare_self_str, ordToNum, qMul, qNonzeroB, jsZero, jsInt]
    cases dir <;> simp [dirMul]

/-- Each one-step tightening strengthens the combined row predicate
pointwise. -/
theorem passes_mono (f fp : FilterState) (hT : TightensFilter f fp) (a : Action)
    (h : passes fp a = true) : passes f a = true := by
  cases hT with
  | host hv hw =>
    simp only [passes, Bool.and_eq_true] at h ⊢
    refine ⟨h.1, h.2.1, h.2.2.1, h.2.2.2.1, h.2.2.2.2.1, h.2.2.2.2.2.1, ?_, h.2.2.2.2.2.2.2⟩
    simp [hostPass, hw]
  | method hv hw =>
    simp only [passes, Bool.and_eq_true] at h ⊢
    refine ⟨h.1, h.2.1, h.2.2.1, h.2.2.2.1, h.2.2.2.2.1, ?_, h.2.2.2.2.2.2.1, h.2.2.2.2.2.2.2⟩
    simp [methodPass, hw]
  | mime hv hw =>
    simp only [passes, Bool.and_eq_true] at h ⊢
    refine ⟨h.1, h.2.1, h.2.2.1, h.2.2.2.1, ?_, h.2.2.2.2.2.1, h.2.2.2.2.2.2.1, h.2.2.2.2.2.2.2⟩
    simp [mimePass, hw]
  | body hw =>
    simp only [passes, Bool.and_eq_true] at h ⊢
    refine ⟨h.1, h.2.1, h.2.2.1, ?_, h.2.2.2.2.1, h.2.2.2.2.2.1, h.2.2.2.2.2.2.1, h.2.2.2.2.2.2.2⟩
    simp [bodyPass, hw]
  | mcount m hm =>
    simp only [passes, Bool.and_eq_true] at h ⊢
    refine ⟨h.1, h.2.1, ?_, h.2.2.2.1, h.2.2.2.2.1, h.2.2.2.2.2.1, h.2.2.2.2.2.2.1, h.2.2.2.2.2.2.2⟩
    have h8 := h.2.2.1
    simp only [countPass] at h8 ⊢
    by_cases hc : qLtB jsZero f.minCount = true
    · have hc2 := (qLtB_zero_iff _).mp hc
      have hm2 := (qLeB_iff _ _).mp hm
      have hmpos : qLtB jsZero m = true := (qLtB_zero_iff m).mpr (lt_of_lt_of_le hc2 hm2)
      rw [hmpos] at h8
      simp only [if_true] at h8
      rw [hc]
      simp only [if_true]
      rw [qLeB_iff]
      exact le_trans hm2 ((qLeB_iff _ _).mp h8)
    · simp only [Bool.not_eq_true] at hc
      rw [hc]
      simp
  | mrisk m hm =>
    simp only [passes, Bool.and_eq_true] at h ⊢
    refine ⟨h.1, ?_, h.2.2.1, h.2.2.2.1, h.2.2.2.2.1, h.2.2.2.2.2.1, h.2.2.2.2.2.2.1, h.2.2.2.2.2.2.2⟩
    have h8 := h.2.1
    simp only [riskPass] at h8 ⊢
    by_cases hc : qLtB jsZero f.minRisk = true
    · have hc2 := (qLtB_zero_iff _).mp hc
      have hm2 := (qLeB_iff _ _).mp hm
      have hmpos : qLtB jsZero m = true := (qLtB_zero_iff m).mpr (lt_of_lt_of_le hc2 hm2)
      rw [hmpos] at h8
      simp only [if_true] at h8
      rw [hc]
      simp only [if_true]
      rw [qLeB_iff]
      exact le_trans hm2 ((qLeB_iff _ _).mp h8)
    · simp only [Bool.not_eq_true] at hc
      rw [hc]
      simp
  | tag t =>
    simp only [passes, Bool.and_eq_true] at h ⊢
    refine ⟨h.1, h.2.1, h.2.2.1, h.2.2.2.1, h.2.2.2.2.1, h.2.2.2.2.2.1, h.2.2.2.2.2.2.1, ?_⟩
    have h8 := h.2.2.2.2.2.2.2
    by_cases hemp : f.excludedTags.isEmpty
    · simp [tagPass, hemp]
    · simp only [tagPass, List.isEmpty_cons, if_false, Bool.false_eq_true] at h8
      simp only [tagPass, hemp, Bool.false_eq_true, if_false]
      rw [List.all_eq_true] at h8 ⊢
      intro x hx
      have hh := h8 x hx
      simp only [Bool.not_eq_true'] at hh ⊢
      rw [List.contains_cons, Bool.or_eq_false_iff] at hh
      exact hh.2
  | search sv hw =>
    simp only [passes, Bool.and_eq_true] at h ⊢
    refine ⟨?_, h.2.1, h.2.2.1, h.2.2.2.1, h.2.2.2.2.1, h.2.2.2.2.2.1, h.2.2.2.2.2.2.1, h.2.2.2.2.2.2.2⟩
    simp only [searchPass, hw]
    rfl

-- ---------- claim theorems ----------

/-- C7: for every action list, filter state and sort state, the
computed view equals the first 800 elements of the fully filtered and
sorted sequence (so the cap is applied only after filtering and
sorting), the view holds at most 800 elements, and sorting leaves the
pre-truncation filtered size untouched. -/
theorem view_cap_after_filter_sort (acts : List Action) (f : FilterState) (s : SortState) :
    filteredActions acts f s = (sortView acts s (filterList f acts)).take 800 ∧
    (filteredActions acts f s).length ≤ 800 ∧
    (sortView acts s (filterList f acts)).length = (filterList f acts).length := by
  refine ⟨filteredActions_eq acts f s, ?_, ?_⟩
  · rw [filteredActions_eq]
    exact List.length_take_le 800 _
  · simp only [sortView]
    exact length_stableSort _ _

/-- C8: tightening the filter state by any one of the enumerated
constraints (facet equality from wildcard, body-only toggle, raised
numeric threshold, one more excluded tag, or a search text on an empty
search) never grows the computed view. -/
theorem filter_tighten_monotone (f fp : FilterState) (hT : TightensFilter f fp)
    (acts : List Action) (s : SortState) :
    (filteredActions acts fp s).length ≤ (filteredActions acts f s).length := by
  rw [filteredActions_eq, filteredActions_eq]
  have hsub : (filterList fp acts).Sublist (filterList f acts) :=
    List.monotone_filter_right acts (fun a ha => passes_mono f fp hT a ha)
  have hlen : (filterList fp acts).length ≤ (filterList f acts).length :=
    hsub.length_le
  simp only [List.length_take, sortView, length_stableSort]
  omega

theorem filter_tighten_monotone_check :
    (filteredActions [rowY, rowZ] { defaultFilter with fHost := "h" } defaultSortState).length ≤
      (filteredActions [rowY, rowZ] defaultFilter defaultSortState).length :=
  filter_tighten_monotone defaultFilter { defaultFilter with fHost := "h" }
    (TightensFilter.host defaultFilter "h" rfl) [rowY, rowZ] defaultSortState

/-- C4: an action with at least one risk tag in the exclusion set never
appears in the computed view, regardless of its other tags. -/
theorem excluded_tag_deny_wins (acts : List Action) (f : FilterState) (s : SortState)
    (a : Action) (t : String) (ht : t ∈ a.risk_tags.getD []) (hex : t ∈ f.excludedTags) :
    a ∉ filteredActions acts f s := by
  intro hmem
  rw [filteredActions_eq] at hmem
  have h1 : a ∈ sortView acts s (filterList f acts) := List.take_subset _ _ hmem
  simp only [sortView] at h1
  rw [mem_stableSort] at h1
  rw [filterList, List.mem_filter] at h1
  have hp := h1.2
  simp only [passes, Bool.and_eq_true] at hp
  have htag := hp.2.2.2.2.2.2.2
  have hne : f.excludedTags.isEmpty = false := by
    cases hfe : f.excludedTags with
    | nil => rw [hfe] at hex; cases hex
    | cons x xs => rfl
  simp only [tagPass, hne, Bool.false_eq_true, if_false] at htag
  rw [List.all_eq_true] at htag
  have hthis := htag t ht
  have hc : f.excludedTags.contains t = true := List.elem_eq_true_of_mem hex
  rw [hc] at hthis
  cases hthis

theorem excluded_tag_deny_wins_check :
    "third_party" ∈ rowC.risk_tags.getD [] ∧
    rowC ∉ filteredActions [rowC] { defaultFilter with excludedTags := ["third_party"] }
      defaultSortState :=
  ⟨by decide,
    excluded_tag_deny_wins [rowC] { defaultFilter with excludedTags := ["third_party"] }
      defaultSortState rowC "third_party" (by decide) (by decide)⟩

/-- C2 (amended): whenever the two extracted primary keys are equal the
comparator reduces to the tie-break chain (count descending, then
average time descending) independently of the sort direction, it orders
the pair strictly whenever count or average time differ, and it is zero
exactly on a full tie — on a full tie the stable sort preserves input
order, so the original claim's "independent of input order" holds only
for pairs distinguished by the tie-break chain. -/
theorem cmp_tie_break (col : Col) (dir : Dir) (A B : Action)
    (h : getVal col A = getVal col B) :
    cmp col dir A B = tieCmp A B ∧
    (qLtB (cmp col dir A B) jsZero = true ↔
      (qLtB B.count A.count = true ∨
        (qEqB B.count A.count = true ∧ qLtB B.avg_time_ms A.avg_time_ms = true))) ∧
    (qNonzeroB (cmp col dir A B) = false ↔
      (qEqB B.count A.count = true ∧ qEqB B.avg_time_ms A.avg_time_ms = true)) := by
  have h1 : cmp col dir A B = tieCmp A B := by
    show cmpVals dir (getVal col A) (getVal col B) A B = tieCmp A B
    rw [h]
    exact cmpVals_of_eq dir _ A B
  refine ⟨h1, ?_, ?_⟩
  · rw [h1]
    exact tieCmp_neg_iff A B
  · rw [h1]
    exact tieCmp_zero_iff A B

theorem cmp_tie_break_check :
    getVal Col.risk scnA2 = getVal Col.risk scnB2 ∧
    cmp Col.risk Dir.asc scnA2 scnB2 = tieCmp scnA2 scnB2 ∧
    cmp Col.risk Dir.desc scnA2 scnB2 = tieCmp scnA2 scnB2 :=
  ⟨by decide,
    (cmp_tie_break Col.risk Dir.asc scnA2 scnB2 (by decide)).1,
    (cmp_tie_break Col.risk Dir.desc scnA2 scnB2 (by decide)).1⟩

/-- C2 counterexample: two distinct actions with equal primary key
(count), equal count and equal average time are a full comparator tie,
and the (stable) sort then keeps them in input order — the output
order of the pair follows the input order, refuting the claim that two
actions with equal primary key are always ordered independently of
their order in the input list. -/
theorem cmp_tie_break_cex :
    tieX ≠ tieY ∧
    getVal Col.count tieX = getVal Col.count tieY ∧
    filteredActions [tieX, tieY] defaultFilter ⟨Col.count, Dir.desc⟩ = [tieX, tieY] ∧
    filteredActions [tieY, tieX] defaultFilter ⟨Col.count, Dir.desc⟩ = [tieY, tieX] :=
  ⟨by decide, by decide, by decide, by decide⟩

/-- C3: a sort state with the empty column resolves to the computed
default — risk descending when some loaded action has a defined risk
score, count descending otherwise — and the two concrete scenarios of
the specification order as `[b, a]`. -/
theorem default_sort_resolution :
    (∀ (acts : List Action) (f : FilterState) (d : Dir),
      filteredActions acts f ⟨Col.none, d⟩ =
        if hasRisk acts then filteredActions acts f ⟨Col.risk, Dir.desc⟩
        else filteredActions acts f ⟨Col.count, Dir.desc⟩) ∧
    filteredActions [scnA1, scnB1] defaultFilter defaultSortState = [scnB1, scnA1] ∧
    filteredActions [scnA2, scnB2] defaultFilter defaultSortState = [scnB2, scnA2] := by
  refine ⟨?_, by decide, by decide⟩
  intro acts f d
  by_cases hr : hasRisk acts
  · simp [filteredActions, resolveSort, defaultSort, hr]
  · simp [filteredActions, resolveSort, defaultSort, hr]

/-- C5 (amended): whenever the loaded action list is non-empty, the
selection self-heal behaves exactly as specified against the computed
view: an unset key takes the first visible key (or stays unset on an
empty view), a no-longer-visible key is reassigned to the first visible
key (or unset on an empty view), and a still-visible key is kept.  With
an empty loaded action list the effect returns early and leaves the
selection untouched (see the counterexample). -/
theorem selection_self_heal (key : String) (acts : List Action) (f : FilterState)
    (s : SortState) (hne : acts ≠ []) :
    (key = "" →
      selHealKey key acts (filteredActions acts f s) =
        (((filteredActions acts f s).head?).map Action.key).getD "") ∧
    ((filteredActions acts f s).any (fun a => a.key == key) = false →
      selHealKey key acts (filteredActions acts f s) =
        (((filteredActions acts f s).head?).map Action.key).getD "") ∧
    (key ≠ "" → (filteredActions acts f s).any (fun a => a.key == key) = true →
      selHealKey key acts (filteredActions acts f s) = key) := by
  refine ⟨?_, ?_, ?_⟩
  · intro hk
    simp [selHealKey, List.length_eq_zero, hne, hk]
  · intro hany
    by_cases hk : key = ""
    · simp [selHealKey, List.length_eq_zero, hne, hk]
    · simp [selHealKey, List.length_eq_zero, hne, hk, hany]
  · intro hk hany
    simp [selHealKey, List.length_eq_zero, hne, hk, hany]

theorem selection_self_heal_check :
    selHealKey "x" [rowY, rowZ] (filteredActions [rowY, rowZ] defaultFilter defaultSortState) =
      "y" := by
  have h :=
    (selection_self_heal "x" [rowY, rowZ] defaultFilter defaultSortState (by decide)).2.1
      (by decide)
  rw [h]
  decide

/-- C5 counterexample: with an empty loaded action list the effect
returns before reassigning, so a set key that appears in no view
element (the view is empty) is kept instead of being unset, refuting
the claim for that case. -/
theorem selection_self_heal_cex :
    selHealKey "x" [] (filteredActions [] defaultFilter defaultSortState) = "x" ∧
    "x" ≠ "" :=
  ⟨by decide, by decide⟩

/-- C1: with a project selected, wizard-save validation applies in the
fixed order allow-list, QPS, ROE, first failure winning: an empty
parsed allow-list is rejected as the empty-scope failure, then a QPS
that does not parse to a finite positive number is rejected before any
ROE parsing, then unparseable ROE text is rejected; in each case no
network request is issued and the gate flag is unchanged. -/
theorem wizard_save_validation_order
    (pid allowText denyText qpsText roeText : String) (gate : Bool)
    (net : SavePayload → Except String Json) (hpid : pid ≠ "") :
    (parseLinesToList allowText = [] →
      wizardSave gate pid allowText denyText qpsText roeText net =
        ⟨some WizardFail.emptyScopeAllowlist, none, gate⟩) ∧
    (parseLinesToList allowText ≠ [] → qpsAccepted qpsText = false →
      wizardSave gate pid allowText denyText qpsText roeText net =
        ⟨some WizardFail.invalidQps, none, gate⟩) ∧
    (parseLinesToList allowText ≠ [] → qpsAccepted qpsText = true →
      safeJsonParse roeText = none →
      wizardSave gate pid allowText denyText qpsText roeText net =
        ⟨some WizardFail.invalidRoeJson, none, gate⟩) := by
  refine ⟨?_, ?_, ?_⟩
  · intro hempty
    simp [wizardSave, wizardValidate, hpid, List.isEmpty_iff, hempty]
  · intro hne hq
    simp only [qpsAccepted] at hq
    rcases hqq : wizQpsNum qpsText with _ | q
    · simp [wizardSave, wizardValidate, hpid, List.isEmpty_iff, hne, hqq]
    · rw [hqq] at hq
      rw [Bool.not_eq_false'] at hq
      simp [wizardSave, wizardValidate, hpid, List.isEmpty_iff, hne, hqq, hq]
  · intro hne hq hroe
    simp only [qpsAccepted] at hq
    rcases hqq : wizQpsNum qpsText with _ | q
    · rw [hqq] at hq
      cases hq
    · rw [hqq] at hq
      simp only [Bool.not_eq_eq_eq_not, Bool.not_true] at hq
      simp [wizardSave, wizardValidate, hpid, List.isEmpty_iff, hne, hqq, hq, hroe]

theorem wizard_save_validation_order_check :
    wizardSave false "p" "" "" "3" "not json" netDown =
      ⟨some WizardFail.emptyScopeAllowlist, none, false⟩ ∧
    wizardSave false "p" "example.com" "" "0" "not json" netDown =
      ⟨some WizardFail.invalidQps, none, false⟩ ∧
    wizardSave false "p" "example.com" "" "3" "not json" netDown =
      ⟨some WizardFail.invalidRoeJson, none, false⟩ :=
  ⟨(wizard_save_validation_order "p" "" "" "3" "not json" false netDown (by decide)).1
      (by decide),
    (wizard_save_validation_order "p" "example.com" "" "0" "not json" false netDown
      (by decide)).2.1 (by decide) (by decide),
    (wizard_save_validation_order "p" "example.com" "" "3" "not json" false netDown
      (by decide)).2.2 (by decide) (by decide) (by rfl)⟩

/-- C6: once validation passes, a failed network request leaves the
whole outcome with the gate flag unchanged (only the error message is
set; the gate is never flipped to complete by a failed save), while a
successful response re-derives the gate solely from the response's
`setup_complete` flag — in particular equal to that flag whenever the
response carries a boolean there. -/
theorem save_gate_rederive (gate : Bool) (pid a d qp r : String)
    (net : SavePayload → Except String Json) (payload : SavePayload)
    (hval : wizardValidate pid a d qp r = Except.ok payload) :
    (∀ msg, net payload = Except.error msg →
      wizardSave gate pid a d qp r net =
        ⟨some WizardFail.saveFailed, some payload, gate⟩) ∧
    (∀ data, net payload = Except.ok data →
      (wizardSave gate pid a d qp r net).setupComplete = respSetupComplete data ∧
      (∀ b, (jget data "project").bind (fun p => jget p "setup_complete") =
          some (Json.bool b) →
        (wizardSave gate pid a d qp r net).setupComplete = b)) := by
  constructor
  · intro msg hnet
    simp [wizardSave, hval, hnet]
  · intro data hnet
    constructor
    · simp [wizardSave, hval, hnet]
    · intro b hb
      simp [wizardSave, hval, hnet, respSetupComplete, hb, boolish, truthy]

theorem save_gate_rederive_check :
    wizardSave false "p" "example.com" "" "3" "\x7b\x7d" netDown =
      ⟨some WizardFail.saveFailed, some demoPayload, false⟩ ∧
    (wizardSave false "p" "example.com" "" "3" "\x7b\x7d" netOkTrue).setupComplete = true :=
  ⟨(save_gate_rederive false "p" "example.com" "" "3" "\x7b\x7d" netDown demoPayload
      (by rfl)).1 "500" rfl,
    ((save_gate_rederive false "p" "example.com" "" "3" "\x7b\x7d" netOkTrue demoPayload
      (by rfl)).2 _ rfl).2 true rfl⟩

/-- C10: with a project selected, a non-empty allow-list and parseable
ROE text, an empty QPS text field is not rejected as an invalid QPS:
the QPS silently defaults to 3 and the save proceeds, issuing the
request with `qps = 3`. -/
theorem empty_qps_defaults_to_three (gate : Bool) (pid a d r : String)
    (net : SavePayload → Except String Json) (hpid : pid ≠ "")
    (hallow : parseLinesToList a ≠ []) (hroe : (safeJsonParse r).isSome) :
    (wizardSave gate pid a d "" r net).err ≠ some WizardFail.invalidQps ∧
    ∃ p, (wizardSave gate pid a d "" r net).request = some p ∧ p.qps = jsInt 3 := by
  rcases hr : safeJsonParse r with _ | roe
  · rw [hr] at hroe
    cases hroe
  · have h3 : qLeB (jsInt 3) jsZero = false := by decide
    have hval : wizardValidate pid a d "" r =
        Except.ok ⟨parseLinesToList a, parseLinesToList d, jsInt 3, roe⟩ := by
      simp [wizardValidate, hpid, List.isEmpty_iff, hallow, wizQpsNum, hr, h3]
    rcases hnet : net ⟨parseLinesToList a, parseLinesToList d, jsInt 3, roe⟩ with msg | data
    · refine ⟨?_, ⟨parseLinesToList a, parseLinesToList d, jsInt 3, roe⟩, ?_, rfl⟩
      · simp [wizardSave, hval, hnet]
      · simp [wizardSave, hval, hnet]
    · refine ⟨?_, ⟨parseLinesToList a, parseLinesToList d, jsInt 3, roe⟩, ?_, rfl⟩
      · simp [wizardSave, hval, hnet]
      · simp [wizardSave, hval, hnet]

theorem empty_qps_defaults_to_three_check :
    (wizardSave true "p" "example.com" "" "" "\x7b\x7d" netDown).err ≠
      some WizardFail.invalidQps ∧
    ∃ p, (wizardSave true "p" "example.com" "" "" "\x7b\x7d" netDown).request = some p ∧
      p.qps = jsInt 3 :=
  empty_qps_defaults_to_three true "p" "example.com" "" "\x7b\x7d" netDown (by decide)
    (by decide) (by rfl)

/-- C9: loading the persisted view state is total (the model is a pure
function), and for an absent store, an empty stored string, or any
stored text the parser rejects, it returns the fully-defaulted view
state — malformed content behaves exactly like an absent store. -/
theorem load_view_state_defaults :
    (∀ env, loadViewState env none = defaultViewState env) ∧
    (∀ env, loadViewState env (some "") = defaultViewState env) ∧
    (∀ env raw, jsonParse raw = none → loadViewState env (some raw) = defaultViewState env) := by
  refine ⟨fun env => rfl, fun env => rfl, ?_⟩
  intro env raw hparse
  have hsaved : savedOf (some raw) = Json.obj [] := by
    by_cases hre : raw = "" <;> simp [savedOf, hre, hparse, jsOrD]
  simp only [loadViewState, hsaved]
  rfl

theorem load_view_state_defaults_check :
    jsonParse "\x7bbad" = none ∧
    loadViewState Json.null (some "\x7bbad") = defaultViewState Json.null :=
  ⟨rfl, load_view_state_defaults.2.2 Json.null "\x7bbad" rfl⟩

end PwnyHub
